import Mathlib

/-!
Verification of the WebHelper multi-source asset resolver (src/WebHelper.js).

The resolver keeps an ordered list of registered sources; addSource appends a
record mapping asset type names to a URL-building function, and load walks the
registered sources in order, fetching each source whose type list contains the
requested asset type name, until one responds with a status in 200..299.

The network is modelled as a pure capability fetch : String -> FetchResult,
following the interface boundary fetch(url) -> response with status and body,
or a transport-level error.  Besides the settled outcome, the embedding
records ghost observations of the run: the list of probes (each urlFunction
invocation together with the result of the fetch it triggered), the final
state of the internal errors array, and the number of setData invocations.
-/

namespace ScratchStorage

/-- AssetType boundary: name is used for source matching, runtimeFormat is
handed to setData on success. -/
structure AssetType where
  name : String
  runtimeFormat : String
deriving DecidableEq, Repr

/-- Asset value boundary: constructed empty from its type and id; data holds
the raw bytes and format once populated. -/
structure Asset where
  assetType : AssetType
  assetId : String
  data : Option (List Nat × String)
deriving DecidableEq, Repr

/-- Construction of the empty asset, as new Asset(assetType, assetId). -/
def mkAsset (assetType : AssetType) (assetId : String) : Asset :=
  { assetType := assetType, assetId := assetId, data := none }

/-- Modelled from the spec: the single populate operation of the AssetValue
boundary (Asset.js is outside the embedded sources); it stores the raw bytes
plus the runtime format hint. -/
def Asset.setData (asset : Asset) (body : List Nat) (fmt : String) : Asset :=
  { asset with data := some (body, fmt) }

/-- What one network fetch settles with: a response carrying a status and a
raw byte body, or a transport-level error. -/
inductive FetchResult where
  | response (status : Nat) (body : List Nat)
  | transportError (message : String)
deriving DecidableEq, Repr

/-- A registered source: the asset type names it serves, and the function
computing a URL from an Asset. -/
structure SourceRecord where
  types : List String
  urlFunction : Asset → String

/-- An entry of the internal errors array: the attempted url together with
the result (an error response or a transport error). -/
structure AttemptFailure where
  url : String
  result : FetchResult
deriving DecidableEq, Repr

/-- How one load call settles: fulfilled with the populated asset, fulfilled
with null, or rejected with the errors array. -/
inductive Outcome where
  | fulfilledAsset (asset : Asset)
  | fulfilledNull
  | rejected (errors : List AttemptFailure)
deriving DecidableEq, Repr

/-- Ghost record of one probe: the snapshot index of the probed source, the
url its urlFunction produced, and what fetching that url settled with. -/
structure Probe where
  index : Nat
  url : String
  result : FetchResult
deriving DecidableEq, Repr

/-- The settled outcome of a load call together with the ghost observations
of the run. -/
structure LoadResult where
  outcome : Outcome
  probes : List Probe
  errors : List AttemptFailure
  setDataCalls : Nat
deriving Repr

/-- The tryNextSource loop of WebHelper.load.  The list argument is the not
yet considered suffix of the snapshot, sourceIndex is the snapshot index of
its head, and errors is the internal errors array accumulated so far.  The
inner while loop of the source (advance sourceIndex until a source whose
types contain assetType.name is found) appears as the skipping recursion in
the non-matching case; a matching source has its urlFunction applied, the
url fetched, and the response dispatched: status outside 200..299 and not
404 pushes an AttemptFailure and retries, 404 retries without recording,
and a 200..299 status populates the asset and fulfills. -/
def tryNextSource (fetch : String → FetchResult) (assetType : AssetType) (asset : Asset) :
    List SourceRecord → Nat → List AttemptFailure → LoadResult
  | [], _, errors =>
    { outcome := if errors.length > 0 then Outcome.rejected errors else Outcome.fulfilledNull
      probes := []
      errors := errors
      setDataCalls := 0 }
  | source :: rest, sourceIndex, errors =>
    if source.types.contains assetType.name then
      let url := source.urlFunction asset
      match fetch url with
      | FetchResult.response status body =>
        if status < 200 ∨ 300 ≤ status then
          if status ≠ 404 then
            let r := tryNextSource fetch assetType asset rest (sourceIndex + 1)
              (errors ++ [{ url := url, result := FetchResult.response status body }])
            { r with probes :=
                { index := sourceIndex, url := url,
                  result := FetchResult.response status body } :: r.probes }
          else
            let r := tryNextSource fetch assetType asset rest (sourceIndex + 1) errors
            { r with probes :=
                { index := sourceIndex, url := url,
                  result := FetchResult.response status body } :: r.probes }
        else
          { outcome := Outcome.fulfilledAsset (asset.setData body assetType.runtimeFormat)
            probes := [{ index := sourceIndex, url := url,
                         result := FetchResult.response status body }]
            errors := errors
            setDataCalls := 1 }
      | FetchResult.transportError message =>
        let r := tryNextSource fetch assetType asset rest (sourceIndex + 1)
          (errors ++ [{ url := url, result := FetchResult.transportError message }])
        { r with probes :=
            { index := sourceIndex, url := url,
              result := FetchResult.transportError message } :: r.probes }
    else
      tryNextSource fetch assetType asset rest (sourceIndex + 1) errors

/-- The WebHelper state: the ordered list of registered sources. -/
structure WebHelper where
  sources : List SourceRecord

/-- addSource: push one record whose types are the names of the given asset
types. -/
def WebHelper.addSource (helper : WebHelper) (types : List AssetType)
    (urlFunction : Asset → String) : WebHelper :=
  { helper with
    sources := helper.sources ++
      [{ types := types.map (fun assetType => assetType.name),
         urlFunction := urlFunction }] }

/-- load: snapshot the sources, construct the empty asset, and run the
tryNextSource loop from sourceIndex 0 with an empty errors array. -/
def WebHelper.load (helper : WebHelper) (fetch : String → FetchResult)
    (assetType : AssetType) (assetId : String) : LoadResult :=
  let sources := helper.sources
  let asset := mkAsset assetType assetId
  tryNextSource fetch assetType asset sources 0 []

/-- A fetch result the loop treats as success: a response with a status in
200..299. -/
def isSuccessResult : FetchResult → Bool
  | FetchResult.response status _ => decide (200 ≤ status) && decide (status < 300)
  | FetchResult.transportError _ => false

/-- A fetch result the loop records on the errors array: a transport error,
or a response whose status is outside 200..299 and is not 404. -/
def isRecordedFailure : FetchResult → Bool
  | FetchResult.response status _ =>
    (decide (status < 200) || decide (300 ≤ status)) && decide (status ≠ 404)
  | FetchResult.transportError _ => true

/-- A fetch result the loop treats as a source miss: a 404 response. -/
def isMissResult : FetchResult → Bool
  | FetchResult.response status _ => decide (status = 404)
  | FetchResult.transportError _ => false

/-- The registered sources whose type list contains the given name, in
registration order. -/
def matchingSources (sources : List SourceRecord) (name : String) : List SourceRecord :=
  sources.filter (fun s => s.types.contains name)

/-- The AttemptFailure a given source would contribute: its computed url and
the result of fetching it. -/
def attemptOf (fetch : String → FetchResult) (asset : Asset) (s : SourceRecord) :
    AttemptFailure :=
  { url := s.urlFunction asset, result := fetch (s.urlFunction asset) }

/-- The inner while loop of tryNextSource as a lookup: scan the part of the
list at and after the given index, and return the first record whose types
contain the name, together with the index just after it. -/
def findNextAux (name : String) : List SourceRecord → Nat → Option (SourceRecord × Nat)
  | [], _ => none
  | source :: rest, sourceIndex =>
    if source.types.contains name then some (source, sourceIndex + 1)
    else findNextAux name rest (sourceIndex + 1)

/-- Lookup of the next matching source of a snapshot from a cursor. -/
def findNext (snapshot : List SourceRecord) (name : String) (sourceIndex : Nat) :
    Option (SourceRecord × Nat) :=
  findNextAux name (snapshot.drop sourceIndex) sourceIndex

/-- The state of one in-flight load call: the snapshot of the sources taken
when load was invoked, the identity of the call, the cursor, the errors
array, and the settled outcome once the promise settles. -/
structure InFlight where
  snapshot : List SourceRecord
  assetType : AssetType
  asset : Asset
  sourceIndex : Nat
  errors : List AttemptFailure
  settled : Option Outcome

/-- Invocation of load: snapshot this.sources, fresh asset, cursor 0. -/
def startLoad (helper : WebHelper) (assetType : AssetType) (assetId : String) : InFlight :=
  { snapshot := helper.sources
    assetType := assetType
    asset := mkAsset assetType assetId
    sourceIndex := 0
    errors := []
    settled := none }

/-- One resumption of an in-flight load call: one iteration of the loop,
reading only the snapshot captured at invocation, never the live registry.
A settled call is never resumed again. -/
def tick (fetch : String → FetchResult) (fl : InFlight) : InFlight :=
  match fl.settled with
  | some _ => fl
  | none =>
    match findNext fl.snapshot fl.assetType.name fl.sourceIndex with
    | none =>
      { fl with settled := some (if fl.errors.length > 0 then Outcome.rejected fl.errors
                                 else Outcome.fulfilledNull) }
    | some (source, nextIndex) =>
      let url := source.urlFunction fl.asset
      match fetch url with
      | FetchResult.response status body =>
        if status < 200 ∨ 300 ≤ status then
          if status ≠ 404 then
            { fl with sourceIndex := nextIndex,
                      errors := fl.errors ++
                        [{ url := url, result := FetchResult.response status body }] }
          else
            { fl with sourceIndex := nextIndex }
        else
          { fl with settled := some (Outcome.fulfilledAsset
              (fl.asset.setData body fl.assetType.runtimeFormat)) }
      | FetchResult.transportError message =>
        { fl with sourceIndex := nextIndex,
                  errors := fl.errors ++
                    [{ url := url, result := FetchResult.transportError message }] }

/-- An action interleaved with an in-flight load: either resume the load, or
register another source on the live helper. -/
inductive SysAction where
  | tick
  | add (types : List AssetType) (urlFunction : Asset → String)

/-- The live registry together with one in-flight load call. -/
structure SysState where
  helper : WebHelper
  inflight : InFlight

/-- One interleaved step of the system. -/
def sysStep (fetch : String → FetchResult) (s : SysState) : SysAction → SysState
  | SysAction.tick => { s with inflight := tick fetch s.inflight }
  | SysAction.add types urlFunction =>
    { s with helper := s.helper.addSource types urlFunction }

/-- Execution of a whole interleaving of ticks and registrations. -/
def sysRun (fetch : String → FetchResult) (s : SysState) (actions : List SysAction) :
    SysState :=
  actions.foldl (sysStep fetch) s

/-- The outcome an in-flight call is committed to: the settled outcome if it
has settled, otherwise the outcome of completing the loop on the remaining
part of its snapshot. -/
def absOutcome (fetch : String → FetchResult) (fl : InFlight) : Outcome :=
  match fl.settled with
  | some o => o
  | none =>
    (tryNextSource fetch fl.assetType fl.asset (fl.snapshot.drop fl.sourceIndex)
      fl.sourceIndex fl.errors).outcome

/-- The system state at the moment a load call is invoked on a helper. -/
def startSys (helper : WebHelper) (assetType : AssetType) (assetId : String) : SysState :=
  { helper := helper, inflight := startLoad helper assetType assetId }

/-- A concrete asset type used by the concrete runs below. -/
def demoType : AssetType := { name := "sb3", runtimeFormat := "binary" }

/-- A second concrete asset type with a different name. -/
def demoPngType : AssetType := { name := "png", runtimeFormat := "image" }

/-- A concrete source serving the first type. -/
def srcA : SourceRecord :=
  { types := ["sb3"], urlFunction := fun a => String.append "a/" a.assetId }

/-- A second concrete source serving the first type. -/
def srcB : SourceRecord :=
  { types := ["sb3"], urlFunction := fun a => String.append "b/" a.assetId }

/-- A concrete source serving only the second type. -/
def srcC : SourceRecord :=
  { types := ["png"], urlFunction := fun a => String.append "c/" a.assetId }

/-- A concrete helper with one non-matching and two matching sources. -/
def demoHelper : WebHelper := { sources := [srcC, srcA, srcB] }

/-- A concrete helper with two matching sources. -/
def demoHelperAB : WebHelper := { sources := [srcA, srcB] }

/-- A concrete helper whose only source serves the second type. -/
def demoHelperC : WebHelper := { sources := [srcC] }

/-- A network that answers 200 with body 7 everywhere. -/
def fetchAllOk : String → FetchResult := fun _ => FetchResult.response 200 [7]

/-- A network where the first source misses and every other answers 200. -/
def fetchMissThenOk : String → FetchResult := fun url =>
  if url = "a/42" then FetchResult.response 404 []
  else FetchResult.response 200 [9]

/-- A concrete helper with a single matching source. -/
def demoHelperA : WebHelper := { sources := [srcA] }

/-- The populated asset produced by the successful demo runs with body 7. -/
def demoAsset7 : Asset :=
  { assetType := demoType, assetId := "42", data := some ([7], demoType.runtimeFormat) }

/-- A system state holding the two-source helper and a fresh in-flight call. -/
def demoSysAB : SysState :=
  { helper := demoHelperAB, inflight := startLoad demoHelperAB demoType "42" }

/-- A network that answers 500 everywhere. -/
def fetchAll500 : String → FetchResult := fun _ => FetchResult.response 500 [1]

/-- A network that answers 404 everywhere. -/
def fetchAll404 : String → FetchResult := fun _ => FetchResult.response 404 []

/-- Equation: the loop on an exhausted list settles from the errors array. -/
theorem tryNextSource_nil (fetch : String → FetchResult) (assetType : AssetType)
    (asset : Asset) (i : Nat) (errors : List AttemptFailure) :
    tryNextSource fetch assetType asset [] i errors =
      { outcome := if errors.length > 0 then Outcome.rejected errors else Outcome.fulfilledNull
        probes := []
        errors := errors
        setDataCalls := 0 } := rfl

/-- Equation: a non-matching source is skipped, advancing the index. -/
theorem tryNextSource_cons_nomatch (fetch : String → FetchResult) (assetType : AssetType)
    (asset : Asset) (source : SourceRecord) (rest : List SourceRecord) (i : Nat)
    (errors : List AttemptFailure)
    (hm : source.types.contains assetType.name = false) :
    tryNextSource fetch assetType asset (source :: rest) i errors =
      tryNextSource fetch assetType asset rest (i + 1) errors := by
  simp at hm
  simp [tryNextSource, hm]

/-- Equation: a matching source whose fetch settles with a 200..299 response
populates the asset and fulfills at once. -/
theorem tryNextSource_cons_success (fetch : String → FetchResult) (assetType : AssetType)
    (asset : Asset) (source : SourceRecord) (rest : List SourceRecord) (i : Nat)
    (errors : List AttemptFailure) (status : Nat) (body : List Nat)
    (hm : source.types.contains assetType.name = true)
    (hf : fetch (source.urlFunction asset) = FetchResult.response status body)
    (h2 : 200 ≤ status) (h3 : status < 300) :
    tryNextSource fetch assetType asset (source :: rest) i errors =
      { outcome := Outcome.fulfilledAsset (asset.setData body assetType.runtimeFormat)
        probes := [{ index := i, url := source.urlFunction asset,
                     result := FetchResult.response status body }]
        errors := errors
        setDataCalls := 1 } := by
  have hc : ¬(status < 200 ∨ 300 ≤ status) := by omega
  simp at hm
  simp [tryNextSource, hm, hf, hc]

/-- Equation: a matching source whose fetch settles with a 404 response
records nothing and retries with the next sources. -/
theorem tryNextSource_cons_miss (fetch : String → FetchResult) (assetType : AssetType)
    (asset : Asset) (source : SourceRecord) (rest : List SourceRecord) (i : Nat)
    (errors : List AttemptFailure) (body : List Nat)
    (hm : source.types.contains assetType.name = true)
    (hf : fetch (source.urlFunction asset) = FetchResult.response 404 body) :
    tryNextSource fetch assetType asset (source :: rest) i errors =
      { tryNextSource fetch assetType asset rest (i + 1) errors with
        probes := { index := i, url := source.urlFunction asset,
                    result := FetchResult.response 404 body }
          :: (tryNextSource fetch assetType asset rest (i + 1) errors).probes } := by
  simp at hm
  simp [tryNextSource, hm, hf]

/-- Equation: a matching source whose fetch settles with a status outside
200..299 and different from 404 pushes an AttemptFailure and retries. -/
theorem tryNextSource_cons_fail (fetch : String → FetchResult) (assetType : AssetType)
    (asset : Asset) (source : SourceRecord) (rest : List SourceRecord) (i : Nat)
    (errors : List AttemptFailure) (status : Nat) (body : List Nat)
    (hm : source.types.contains assetType.name = true)
    (hf : fetch (source.urlFunction asset) = FetchResult.response status body)
    (hout : status < 200 ∨ 300 ≤ status) (h404 : status ≠ 404) :
    tryNextSource fetch assetType asset (source :: rest) i errors =
      { tryNextSource fetch assetType asset rest (i + 1)
          (errors ++ [{ url := source.urlFunction asset,
                        result := FetchResult.response status body }]) with
        probes := { index := i, url := source.urlFunction asset,
                    result := FetchResult.response status body }
          :: (tryNextSource fetch assetType asset rest (i + 1)
                (errors ++ [{ url := source.urlFunction asset,
                              result := FetchResult.response status body }])).probes } := by
  simp at hm
  simp [tryNextSource, hm, hf, hout, h404]

/-- Equation: a matching source whose fetch settles with a transport error
pushes an AttemptFailure and retries. -/
theorem tryNextSource_cons_transport (fetch : String → FetchResult) (assetType : AssetType)
    (asset : Asset) (source : SourceRecord) (rest : List SourceRecord) (i : Nat)
    (errors : List AttemptFailure) (message : String)
    (hm : source.types.contains assetType.name = true)
    (hf : fetch (source.urlFunction asset) = FetchResult.transportError message) :
    tryNextSource fetch assetType asset (source :: rest) i errors =
      { tryNextSource fetch assetType asset rest (i + 1)
          (errors ++ [{ url := source.urlFunction asset,
                        result := FetchResult.transportError message }]) with
        probes := { index := i, url := source.urlFunction asset,
                    result := FetchResult.transportError message }
          :: (tryNextSource fetch assetType asset rest (i + 1)
                (errors ++ [{ url := source.urlFunction asset,
                              result := FetchResult.transportError message }])).probes } := by
  simp at hm
  simp [tryNextSource, hm, hf]

/-- Projection of a probes update: the outcome field is unchanged. -/
theorem probesUpdate_outcome (r : LoadResult) (x : List Probe) :
    ({ r with probes := x } : LoadResult).outcome = r.outcome := rfl

/-- Projection of a probes update: the probes field is replaced. -/
theorem probesUpdate_probes (r : LoadResult) (x : List Probe) :
    ({ r with probes := x } : LoadResult).probes = x := rfl

/-- Projection of a probes update: the errors field is unchanged. -/
theorem probesUpdate_errors (r : LoadResult) (x : List Probe) :
    ({ r with probes := x } : LoadResult).errors = r.errors := rfl

/-- Projection of a probes update: the setDataCalls field is unchanged. -/
theorem probesUpdate_setDataCalls (r : LoadResult) (x : List Probe) :
    ({ r with probes := x } : LoadResult).setDataCalls = r.setDataCalls := rfl

/-- Every recorded probe points at a matching source of the considered list:
its index is at least the starting index and in range, the source at that
offset has a matching type list, and the probe records the url that source
computed together with the result of fetching it. -/
theorem probe_mem_spec (fetch : String → FetchResult) (assetType : AssetType) (asset : Asset)
    (l : List SourceRecord) (i : Nat) (errors : List AttemptFailure) (e : Probe)
    (he : e ∈ (tryNextSource fetch assetType asset l i errors).probes) :
    i ≤ e.index ∧ e.index - i < l.length ∧
      ∃ s, l.get? (e.index - i) = some s ∧ s.types.contains assetType.name = true ∧
        e.url = s.urlFunction asset ∧ e.result = fetch e.url := by
  induction l generalizing i errors with
  | nil =>
    rw [tryNextSource_nil] at he
    simp at he
  | cons source rest ih =>
    cases hm : source.types.contains assetType.name with
    | false =>
      rw [tryNextSource_cons_nomatch fetch assetType asset source rest i errors hm] at he
      obtain ⟨h1, h2, s, h3, h4, h5, h6⟩ := ih (i + 1) errors he
      have hk : e.index - i = (e.index - (i + 1)) + 1 := by omega
      refine ⟨by omega, by simp [hk]; omega, s, ?_, h4, h5, h6⟩
      rw [hk, List.get?_cons_succ]
      exact h3
    | true =>
      cases hf : fetch (source.urlFunction asset) with
      | response status body =>
        by_cases h404 : status = 404
        · subst h404
          rw [tryNextSource_cons_miss fetch assetType asset source rest i errors body hm hf]
            at he
          rw [probesUpdate_probes, List.mem_cons] at he
          rcases he with rfl | he
          · exact ⟨by simp, by simp, source, by simp, hm, rfl, by simp [hf]⟩
          · obtain ⟨h1, h2, s, h3, h4, h5, h6⟩ := ih (i + 1) errors he
            have hk : e.index - i = (e.index - (i + 1)) + 1 := by omega
            refine ⟨by omega, by simp [hk]; omega, s, ?_, h4, h5, h6⟩
            rw [hk, List.get?_cons_succ]
            exact h3
        · by_cases hok : 200 ≤ status ∧ status < 300
          · rw [tryNextSource_cons_success fetch assetType asset source rest i errors status
              body hm hf hok.1 hok.2] at he
            simp only [List.mem_singleton] at he
            subst he
            exact ⟨by simp, by simp, source, by simp, hm, rfl, by simp [hf]⟩
          · have hout : status < 200 ∨ 300 ≤ status := by omega
            rw [tryNextSource_cons_fail fetch assetType asset source rest i errors status body
              hm hf hout h404] at he
            rw [probesUpdate_probes, List.mem_cons] at he
            rcases he with rfl | he
            · exact ⟨by simp, by simp, source, by simp, hm, rfl, by simp [hf]⟩
            · obtain ⟨h1, h2, s, h3, h4, h5, h6⟩ := ih (i + 1) _ he
              have hk : e.index - i = (e.index - (i + 1)) + 1 := by omega
              refine ⟨by omega, by simp [hk]; omega, s, ?_, h4, h5, h6⟩
              rw [hk, List.get?_cons_succ]
              exact h3
      | transportError message =>
        rw [tryNextSource_cons_transport fetch assetType asset source rest i errors message
          hm hf] at he
        rw [probesUpdate_probes, List.mem_cons] at he
        rcases he with rfl | he
        · exact ⟨by simp, by simp, source, by simp, hm, rfl, by simp [hf]⟩
        · obtain ⟨h1, h2, s, h3, h4, h5, h6⟩ := ih (i + 1) _ he
          have hk : e.index - i = (e.index - (i + 1)) + 1 := by omega
          refine ⟨by omega, by simp [hk]; omega, s, ?_, h4, h5, h6⟩
          rw [hk, List.get?_cons_succ]
          exact h3

/-- At most one probe per considered source. -/
theorem probes_length_le (fetch : String → FetchResult) (assetType : AssetType) (asset : Asset)
    (l : List SourceRecord) (i : Nat) (errors : List AttemptFailure) :
    (tryNextSource fetch assetType asset l i errors).probes.length ≤ l.length := by
  induction l generalizing i errors with
  | nil => rw [tryNextSource_nil]; simp
  | cons source rest ih =>
    cases hm : source.types.contains assetType.name with
    | false =>
      rw [tryNextSource_cons_nomatch fetch assetType asset source rest i errors hm]
      exact Nat.le_succ_of_le (ih (i + 1) errors)
    | true =>
      cases hf : fetch (source.urlFunction asset) with
      | response status body =>
        by_cases h404 : status = 404
        · subst h404
          rw [tryNextSource_cons_miss fetch assetType asset source rest i errors body hm hf,
            probesUpdate_probes]
          simpa using ih (i + 1) errors
        · by_cases hok : 200 ≤ status ∧ status < 300
          · rw [tryNextSource_cons_success fetch assetType asset source rest i errors status
              body hm hf hok.1 hok.2]
            simp
          · have hout : status < 200 ∨ 300 ≤ status := by omega
            rw [tryNextSource_cons_fail fetch assetType asset source rest i errors status body
              hm hf hout h404, probesUpdate_probes]
            simpa using ih (i + 1) _
      | transportError message =>
        rw [tryNextSource_cons_transport fetch assetType asset source rest i errors message
          hm hf, probesUpdate_probes]
        simpa using ih (i + 1) _

/-- Probe indices are strictly increasing along the recorded probe list. -/
theorem probes_pairwise (fetch : String → FetchResult) (assetType : AssetType) (asset : Asset)
    (l : List SourceRecord) (i : Nat) (errors : List AttemptFailure) :
    (tryNextSource fetch assetType asset l i errors).probes.Pairwise
      (fun p q => p.index < q.index) := by
  induction l generalizing i errors with
  | nil => rw [tryNextSource_nil]; simp
  | cons source rest ih =>
    cases hm : source.types.contains assetType.name with
    | false =>
      rw [tryNextSource_cons_nomatch fetch assetType asset source rest i errors hm]
      exact ih (i + 1) errors
    | true =>
      cases hf : fetch (source.urlFunction asset) with
      | response status body =>
        by_cases h404 : status = 404
        · subst h404
          rw [tryNextSource_cons_miss fetch assetType asset source rest i errors body hm hf,
            probesUpdate_probes]
          refine List.Pairwise.cons ?_ (ih (i + 1) errors)
          intro q hq
          have hmem := probe_mem_spec fetch assetType asset rest (i + 1) errors q hq
          simp only []
          omega
        · by_cases hok : 200 ≤ status ∧ status < 300
          · rw [tryNextSource_cons_success fetch assetType asset source rest i errors status
              body hm hf hok.1 hok.2]
            simp
          · have hout : status < 200 ∨ 300 ≤ status := by omega
            rw [tryNextSource_cons_fail fetch assetType asset source rest i errors status body
              hm hf hout h404, probesUpdate_probes]
            refine List.Pairwise.cons ?_ (ih (i + 1) _)
            intro q hq
            have hmem := probe_mem_spec fetch assetType asset rest (i + 1) _ q hq
            simp only []
            omega
      | transportError message =>
        rw [tryNextSource_cons_transport fetch assetType asset source rest i errors message
          hm hf, probesUpdate_probes]
        refine List.Pairwise.cons ?_ (ih (i + 1) _)
        intro q hq
        have hmem := probe_mem_spec fetch assetType asset rest (i + 1) _ q hq
        simp only []
        omega

/-- Consing onto a non-empty list keeps its last element. -/
theorem getLast?_cons_of_mem {α : Type} (a x : α) (l : List α) (hx : x ∈ l) :
    (a :: l).getLast? = l.getLast? := by
  cases l with
  | nil => simp at hx
  | cons b t => exact List.getLast?_cons_cons

/-- If some probe settled with a success response, the loop fulfills with the
asset populated from exactly that response body, the successful probe is the
last one recorded, and no probe has a larger index. -/
theorem success_probe_spec (fetch : String → FetchResult) (assetType : AssetType)
    (asset : Asset) (l : List SourceRecord) (i : Nat) (errors : List AttemptFailure)
    (e : Probe) (he : e ∈ (tryNextSource fetch assetType asset l i errors).probes)
    (hst : isSuccessResult e.result = true) :
    (∀ status body, e.result = FetchResult.response status body →
      (tryNextSource fetch assetType asset l i errors).outcome =
        Outcome.fulfilledAsset (asset.setData body assetType.runtimeFormat)) ∧
    (tryNextSource fetch assetType asset l i errors).probes.getLast? = some e ∧
    ∀ q ∈ (tryNextSource fetch assetType asset l i errors).probes, q.index ≤ e.index := by
  induction l generalizing i errors with
  | nil =>
    rw [tryNextSource_nil] at he
    simp at he
  | cons source rest ih =>
    cases hm : source.types.contains assetType.name with
    | false =>
      rw [tryNextSource_cons_nomatch fetch assetType asset source rest i errors hm] at he ⊢
      exact ih (i + 1) errors he
    | true =>
      cases hf : fetch (source.urlFunction asset) with
      | response status body =>
        by_cases h404 : status = 404
        · subst h404
          rw [tryNextSource_cons_miss fetch assetType asset source rest i errors body hm hf]
            at he ⊢
          rw [probesUpdate_probes, List.mem_cons] at he
          rcases he with rfl | he
          · simp [isSuccessResult] at hst
          · obtain ⟨houtc, hlast, hidx⟩ := ih (i + 1) errors he
            refine ⟨?_, ?_, ?_⟩
            · intro status body hrb
              rw [probesUpdate_outcome]
              exact houtc status body hrb
            · rw [probesUpdate_probes, getLast?_cons_of_mem _ e _ he]
              exact hlast
            · rw [probesUpdate_probes]
              intro q hq
              rcases List.mem_cons.mp hq with rfl | hq
              · have := probe_mem_spec fetch assetType asset rest (i + 1) errors e he
                simp only []
                omega
              · exact hidx q hq
        · by_cases hok : 200 ≤ status ∧ status < 300
          · rw [tryNextSource_cons_success fetch assetType asset source rest i errors status
              body hm hf hok.1 hok.2] at he ⊢
            simp only [List.mem_singleton] at he
            subst he
            refine ⟨?_, by simp, by simp⟩
            intro status1 body1 hrb
            simp only [] at hrb
            cases hrb
            rfl
          · have hout : status < 200 ∨ 300 ≤ status := by omega
            rw [tryNextSource_cons_fail fetch assetType asset source rest i errors status body
              hm hf hout h404] at he ⊢
            rw [probesUpdate_probes, List.mem_cons] at he
            rcases he with rfl | he
            · simp only [isSuccessResult] at hst
              simp at hst
              omega
            · obtain ⟨houtc, hlast, hidx⟩ := ih (i + 1) _ he
              refine ⟨?_, ?_, ?_⟩
              · intro status1 body1 hrb
                rw [probesUpdate_outcome]
                exact houtc status1 body1 hrb
              · rw [probesUpdate_probes, getLast?_cons_of_mem _ e _ he]
                exact hlast
              · rw [probesUpdate_probes]
                intro q hq
                rcases List.mem_cons.mp hq with rfl | hq
                · have := probe_mem_spec fetch assetType asset rest (i + 1) _ e he
                  simp only []
                  omega
                · exact hidx q hq
      | transportError message =>
        rw [tryNextSource_cons_transport fetch assetType asset source rest i errors message
          hm hf] at he ⊢
        rw [probesUpdate_probes, List.mem_cons] at he
        rcases he with rfl | he
        · simp [isSuccessResult] at hst
        · obtain ⟨houtc, hlast, hidx⟩ := ih (i + 1) _ he
          refine ⟨?_, ?_, ?_⟩
          · intro status1 body1 hrb
            rw [probesUpdate_outcome]
            exact houtc status1 body1 hrb
          · rw [probesUpdate_probes, getLast?_cons_of_mem _ e _ he]
            exact hlast
          · rw [probesUpdate_probes]
            intro q hq
            rcases List.mem_cons.mp hq with rfl | hq
            · have := probe_mem_spec fetch assetType asset rest (i + 1) _ e he
              simp only []
              omega
            · exact hidx q hq

/-- If no source of the considered list matches, the loop settles from the
errors array without probing anything. -/
theorem no_match_spec (fetch : String → FetchResult) (assetType : AssetType) (asset : Asset)
    (l : List SourceRecord) (i : Nat) (errors : List AttemptFailure)
    (hnone : ∀ s ∈ l, s.types.contains assetType.name = false) :
    tryNextSource fetch assetType asset l i errors =
      { outcome := if errors.length > 0 then Outcome.rejected errors else Outcome.fulfilledNull
        probes := []
        errors := errors
        setDataCalls := 0 } := by
  induction l generalizing i with
  | nil => exact tryNextSource_nil fetch assetType asset i errors
  | cons source rest ih =>
    rw [tryNextSource_cons_nomatch fetch assetType asset source rest i errors
      (hnone source (List.mem_cons_self source rest))]
    exact ih (i + 1) (fun s hs => hnone s (List.mem_cons_of_mem source hs))

/-- If every matching source of the considered list fetches to a recorded
failure, the final errors array is the starting one extended by one
AttemptFailure per matching source in order, each carrying the url computed
by that source and its fetch result, and the loop settles from that array. -/
theorem all_fail_spec (fetch : String → FetchResult) (assetType : AssetType) (asset : Asset)
    (l : List SourceRecord) (i : Nat) (errors : List AttemptFailure)
    (hall : ∀ s ∈ l, s.types.contains assetType.name = true →
      isRecordedFailure (fetch (s.urlFunction asset)) = true) :
    (tryNextSource fetch assetType asset l i errors).errors =
      errors ++ (matchingSources l assetType.name).map (attemptOf fetch asset) ∧
    (tryNextSource fetch assetType asset l i errors).outcome =
      (if (errors ++ (matchingSources l assetType.name).map (attemptOf fetch asset)).length > 0
       then Outcome.rejected
         (errors ++ (matchingSources l assetType.name).map (attemptOf fetch asset))
       else Outcome.fulfilledNull) := by
  induction l generalizing i errors with
  | nil =>
    rw [tryNextSource_nil]
    simp [matchingSources]
  | cons source rest ih =>
    cases hm : source.types.contains assetType.name with
    | false =>
      have hm' : assetType.name ∉ source.types := by simpa using hm
      have hms : matchingSources (source :: rest) assetType.name =
          matchingSources rest assetType.name := by
        simp [matchingSources, List.filter_cons, hm']
      rw [tryNextSource_cons_nomatch fetch assetType asset source rest i errors hm, hms]
      exact ih (i + 1) errors (fun s hs hc => hall s (List.mem_cons_of_mem source hs) hc)
    | true =>
      have hrec := hall source (List.mem_cons_self source rest) hm
      have hm' : assetType.name ∈ source.types := by simpa using hm
      have hms : matchingSources (source :: rest) assetType.name =
          source :: matchingSources rest assetType.name := by
        simp [matchingSources, List.filter_cons, hm']
      have htail : ∀ s ∈ rest, s.types.contains assetType.name = true →
          isRecordedFailure (fetch (s.urlFunction asset)) = true :=
        fun s hs hc => hall s (List.mem_cons_of_mem source hs) hc
      cases hf : fetch (source.urlFunction asset) with
      | response status body =>
        rw [hf] at hrec
        simp only [isRecordedFailure, Bool.and_eq_true, Bool.or_eq_true,
          decide_eq_true_eq] at hrec
        obtain ⟨hout, h404⟩ := hrec
        rw [tryNextSource_cons_fail fetch assetType asset source rest i errors status body
          hm hf hout h404, probesUpdate_errors, probesUpdate_outcome]
        have hx : attemptOf fetch asset source =
            AttemptFailure.mk (source.urlFunction asset)
              (FetchResult.response status body) := by
          simp [attemptOf, hf]
        have hlist : (errors ++ [AttemptFailure.mk (source.urlFunction asset)
              (FetchResult.response status body)]) ++
            (matchingSources rest assetType.name).map (attemptOf fetch asset) =
            errors ++ (matchingSources (source :: rest) assetType.name).map
              (attemptOf fetch asset) := by
          rw [hms, List.map_cons, hx, List.append_assoc]
          simp
        obtain ⟨he, ho⟩ := ih (i + 1) _ htail
        rw [hlist] at he ho
        exact ⟨he, ho⟩
      | transportError message =>
        rw [tryNextSource_cons_transport fetch assetType asset source rest i errors message
          hm hf, probesUpdate_errors, probesUpdate_outcome]
        have hx : attemptOf fetch asset source =
            AttemptFailure.mk (source.urlFunction asset)
              (FetchResult.transportError message) := by
          simp [attemptOf, hf]
        have hlist : (errors ++ [AttemptFailure.mk (source.urlFunction asset)
              (FetchResult.transportError message)]) ++
            (matchingSources rest assetType.name).map (attemptOf fetch asset) =
            errors ++ (matchingSources (source :: rest) assetType.name).map
              (attemptOf fetch asset) := by
          rw [hms, List.map_cons, hx, List.append_assoc]
          simp
        obtain ⟨he, ho⟩ := ih (i + 1) _ htail
        rw [hlist] at he ho
        exact ⟨he, ho⟩

/-- If every matching source of the considered list fetches to a 404, the
errors array never grows, the loop settles from the starting array, and no
setData happens. -/
theorem all_miss_spec (fetch : String → FetchResult) (assetType : AssetType) (asset : Asset)
    (l : List SourceRecord) (i : Nat) (errors : List AttemptFailure)
    (hall : ∀ s ∈ l, s.types.contains assetType.name = true →
      isMissResult (fetch (s.urlFunction asset)) = true) :
    (tryNextSource fetch assetType asset l i errors).errors = errors ∧
    (tryNextSource fetch assetType asset l i errors).outcome =
      (if errors.length > 0 then Outcome.rejected errors else Outcome.fulfilledNull) ∧
    (tryNextSource fetch assetType asset l i errors).setDataCalls = 0 := by
  induction l generalizing i with
  | nil =>
    rw [tryNextSource_nil]
    exact ⟨rfl, rfl, rfl⟩
  | cons source rest ih =>
    have htail : ∀ s ∈ rest, s.types.contains assetType.name = true →
        isMissResult (fetch (s.urlFunction asset)) = true :=
      fun s hs hc => hall s (List.mem_cons_of_mem source hs) hc
    cases hm : source.types.contains assetType.name with
    | false =>
      rw [tryNextSource_cons_nomatch fetch assetType asset source rest i errors hm]
      exact ih (i + 1) htail
    | true =>
      have hrec := hall source (List.mem_cons_self source rest) hm
      cases hf : fetch (source.urlFunction asset) with
      | response status body =>
        rw [hf] at hrec
        simp only [isMissResult, decide_eq_true_eq] at hrec
        subst hrec
        rw [tryNextSource_cons_miss fetch assetType asset source rest i errors body hm hf,
          probesUpdate_errors, probesUpdate_outcome, probesUpdate_setDataCalls]
        exact ih (i + 1) htail
      | transportError message =>
        rw [hf] at hrec
        simp [isMissResult] at hrec

/-- Every entry of the final errors array either was already present or is a
recorded failure consistent with the network: its result is what fetching
its url settles with, and that result is neither a success nor a 404. -/
theorem errors_mem_spec (fetch : String → FetchResult) (assetType : AssetType) (asset : Asset)
    (l : List SourceRecord) (i : Nat) (errors : List AttemptFailure) (a : AttemptFailure)
    (ha : a ∈ (tryNextSource fetch assetType asset l i errors).errors) :
    a ∈ errors ∨ (isRecordedFailure a.result = true ∧ a.result = fetch a.url) := by
  induction l generalizing i errors with
  | nil =>
    rw [tryNextSource_nil] at ha
    exact Or.inl ha
  | cons source rest ih =>
    cases hm : source.types.contains assetType.name with
    | false =>
      rw [tryNextSource_cons_nomatch fetch assetType asset source rest i errors hm] at ha
      exact ih (i + 1) errors ha
    | true =>
      cases hf : fetch (source.urlFunction asset) with
      | response status body =>
        by_cases h404 : status = 404
        · subst h404
          rw [tryNextSource_cons_miss fetch assetType asset source rest i errors body hm hf,
            probesUpdate_errors] at ha
          exact ih (i + 1) errors ha
        · by_cases hok : 200 ≤ status ∧ status < 300
          · rw [tryNextSource_cons_success fetch assetType asset source rest i errors status
              body hm hf hok.1 hok.2] at ha
            exact Or.inl ha
          · have hout : status < 200 ∨ 300 ≤ status := by omega
            rw [tryNextSource_cons_fail fetch assetType asset source rest i errors status body
              hm hf hout h404, probesUpdate_errors] at ha
            rcases ih (i + 1) _ ha with hin | hrec
            · rcases List.mem_append.mp hin with hin | hin
              · exact Or.inl hin
              · simp only [List.mem_singleton] at hin
                subst hin
                refine Or.inr ⟨?_, by simp [hf]⟩
                simp only [isRecordedFailure, Bool.and_eq_true, Bool.or_eq_true,
                  decide_eq_true_eq]
                exact ⟨hout, h404⟩
            · exact Or.inr hrec
      | transportError message =>
        rw [tryNextSource_cons_transport fetch assetType asset source rest i errors message
          hm hf, probesUpdate_errors] at ha
        rcases ih (i + 1) _ ha with hin | hrec
        · rcases List.mem_append.mp hin with hin | hin
          · exact Or.inl hin
          · simp only [List.mem_singleton] at hin
            subst hin
            exact Or.inr ⟨by simp [isRecordedFailure], by simp [hf]⟩
        · exact Or.inr hrec

/-- setData accounting: at most one setData per call, exactly one on the
fulfilled-asset path where the asset returned is the starting asset with its
data populated, and none on the null or rejected paths. -/
theorem setData_spec (fetch : String → FetchResult) (assetType : AssetType) (asset : Asset)
    (l : List SourceRecord) (i : Nat) (errors : List AttemptFailure) :
    (tryNextSource fetch assetType asset l i errors).setDataCalls ≤ 1 ∧
    (∀ a, (tryNextSource fetch assetType asset l i errors).outcome =
        Outcome.fulfilledAsset a →
      (tryNextSource fetch assetType asset l i errors).setDataCalls = 1 ∧
        ∃ body, a = asset.setData body assetType.runtimeFormat) ∧
    ((tryNextSource fetch assetType asset l i errors).outcome = Outcome.fulfilledNull →
      (tryNextSource fetch assetType asset l i errors).setDataCalls = 0) ∧
    (∀ es, (tryNextSource fetch assetType asset l i errors).outcome = Outcome.rejected es →
      (tryNextSource fetch assetType asset l i errors).setDataCalls = 0) := by
  induction l generalizing i errors with
  | nil =>
    rw [tryNextSource_nil]
    refine ⟨by simp, ?_, fun _ => rfl, fun _ _ => rfl⟩
    intro a h
    simp only [] at h
    split at h <;> simp at h
  | cons source rest ih =>
    cases hm : source.types.contains assetType.name with
    | false =>
      rw [tryNextSource_cons_nomatch fetch assetType asset source rest i errors hm]
      exact ih (i + 1) errors
    | true =>
      cases hf : fetch (source.urlFunction asset) with
      | response status body =>
        by_cases h404 : status = 404
        · subst h404
          rw [tryNextSource_cons_miss fetch assetType asset source rest i errors body hm hf,
            probesUpdate_outcome, probesUpdate_setDataCalls]
          exact ih (i + 1) errors
        · by_cases hok : 200 ≤ status ∧ status < 300
          · rw [tryNextSource_cons_success fetch assetType asset source rest i errors status
              body hm hf hok.1 hok.2]
            refine ⟨by simp, ?_, by intro h; simp at h, by intro es h; simp at h⟩
            intro a h
            simp only [Outcome.fulfilledAsset.injEq] at h
            exact ⟨rfl, body, h.symm⟩
          · have hout : status < 200 ∨ 300 ≤ status := by omega
            rw [tryNextSource_cons_fail fetch assetType asset source rest i errors status body
              hm hf hout h404, probesUpdate_outcome, probesUpdate_setDataCalls]
            exact ih (i + 1) _
      | transportError message =>
        rw [tryNextSource_cons_transport fetch assetType asset source rest i errors message
          hm hf, probesUpdate_outcome, probesUpdate_setDataCalls]
        exact ih (i + 1) _

/-- The outcome and the final errors array only depend on the matching
sources in order: the loop on any list agrees with the loop on its matching
sublist, whatever starting indices are used. -/
theorem filter_spec (fetch : String → FetchResult) (assetType : AssetType) (asset : Asset)
    (l : List SourceRecord) (i j : Nat) (errors : List AttemptFailure) :
    (tryNextSource fetch assetType asset l i errors).outcome =
      (tryNextSource fetch assetType asset (matchingSources l assetType.name) j
        errors).outcome ∧
    (tryNextSource fetch assetType asset l i errors).errors =
      (tryNextSource fetch assetType asset (matchingSources l assetType.name) j
        errors).errors := by
  induction l generalizing i j errors with
  | nil => exact ⟨rfl, rfl⟩
  | cons source rest ih =>
    cases hm : source.types.contains assetType.name with
    | false =>
      have hm' : assetType.name ∉ source.types := by simpa using hm
      have hms : matchingSources (source :: rest) assetType.name =
          matchingSources rest assetType.name := by
        simp [matchingSources, List.filter_cons, hm']
      rw [tryNextSource_cons_nomatch fetch assetType asset source rest i errors hm, hms]
      exact ih (i + 1) j errors
    | true =>
      have hm' : assetType.name ∈ source.types := by simpa using hm
      have hms : matchingSources (source :: rest) assetType.name =
          source :: matchingSources rest assetType.name := by
        simp [matchingSources, List.filter_cons, hm']
      rw [hms]
      cases hf : fetch (source.urlFunction asset) with
      | response status body =>
        by_cases h404 : status = 404
        · subst h404
          rw [tryNextSource_cons_miss fetch assetType asset source rest i errors body hm hf,
            tryNextSource_cons_miss fetch assetType asset source
              (matchingSources rest assetType.name) j errors body hm hf,
            probesUpdate_outcome, probesUpdate_errors,
            probesUpdate_outcome, probesUpdate_errors]
          exact ih (i + 1) (j + 1) errors
        · by_cases hok : 200 ≤ status ∧ status < 300
          · rw [tryNextSource_cons_success fetch assetType asset source rest i errors status
              body hm hf hok.1 hok.2,
              tryNextSource_cons_success fetch assetType asset source
                (matchingSources rest assetType.name) j errors status body hm hf hok.1 hok.2]
            exact ⟨rfl, rfl⟩
          · have hout : status < 200 ∨ 300 ≤ status := by omega
            rw [tryNextSource_cons_fail fetch assetType asset source rest i errors status body
              hm hf hout h404,
              tryNextSource_cons_fail fetch assetType asset source
                (matchingSources rest assetType.name) j errors status body hm hf hout h404,
              probesUpdate_outcome, probesUpdate_errors,
              probesUpdate_outcome, probesUpdate_errors]
            exact ih (i + 1) (j + 1) _
      | transportError message =>
        rw [tryNextSource_cons_transport fetch assetType asset source rest i errors message
          hm hf,
          tryNextSource_cons_transport fetch assetType asset source
            (matchingSources rest assetType.name) j errors message hm hf,
          probesUpdate_outcome, probesUpdate_errors,
          probesUpdate_outcome, probesUpdate_errors]
        exact ih (i + 1) (j + 1) _

/-- An exhausted lookup means no source at or after the cursor matches. -/
theorem findNextAux_none_spec (name : String) (l : List SourceRecord) (i : Nat)
    (h : findNextAux name l i = none) :
    ∀ s ∈ l, s.types.contains name = false := by
  induction l generalizing i with
  | nil => intro s hs; simp at hs
  | cons s0 rest ih =>
    intro s hs
    cases hm : s0.types.contains name with
    | true => rw [findNextAux, if_pos hm] at h; simp at h
    | false =>
      rw [findNextAux, if_neg (by rw [hm]; simp)] at h
      rcases List.mem_cons.mp hs with rfl | hs
      · exact hm
      · exact ih (i + 1) h s hs

/-- A successful lookup splits the scanned list into a non-matching prefix,
the found matching source, and the rest, with the returned index pointing
just past the found source. -/
theorem findNextAux_some_spec (name : String) (l : List SourceRecord) (i : Nat)
    (source : SourceRecord) (j : Nat)
    (h : findNextAux name l i = some (source, j)) :
    source.types.contains name = true ∧ i < j ∧
    ∃ pre, (∀ x ∈ pre, x.types.contains name = false) ∧
      l = pre ++ source :: l.drop (j - i) ∧ j = i + pre.length + 1 := by
  induction l generalizing i with
  | nil => simp [findNextAux] at h
  | cons s0 rest ih =>
    cases hm : s0.types.contains name with
    | true =>
      rw [findNextAux, if_pos hm] at h
      simp only [Option.some.injEq, Prod.mk.injEq] at h
      obtain ⟨rfl, rfl⟩ := h
      refine ⟨hm, by omega, [], by simp, ?_, by simp⟩
      simp
    | false =>
      rw [findNextAux, if_neg (by rw [hm]; simp)] at h
      obtain ⟨hc, hij, pre, hpre, hsplit, hj⟩ := ih (i + 1) h
      refine ⟨hc, by omega, s0 :: pre, ?_, ?_, by simp; omega⟩
      · intro x hx
        rcases List.mem_cons.mp hx with rfl | hx
        · exact hm
        · exact hpre x hx
      · have hk : j - i = (j - (i + 1)) + 1 := by omega
        rw [hk, List.drop_succ_cons]
        rw [List.cons_append]
        rw [← hsplit]

/-- Sources with non-matching types are skipped without any observable
effect, only advancing the index. -/
theorem tryNextSource_skip_prefix (fetch : String → FetchResult) (assetType : AssetType)
    (asset : Asset) (pre l : List SourceRecord) (i : Nat) (errors : List AttemptFailure)
    (hpre : ∀ x ∈ pre, x.types.contains assetType.name = false) :
    tryNextSource fetch assetType asset (pre ++ l) i errors =
      tryNextSource fetch assetType asset l (i + pre.length) errors := by
  induction pre generalizing i with
  | nil => simp
  | cons x pre ih =>
    rw [List.cons_append, tryNextSource_cons_nomatch fetch assetType asset x (pre ++ l) i
      errors (hpre x (List.mem_cons_self x pre)),
      ih (i + 1) (fun y hy => hpre y (List.mem_cons_of_mem x hy))]
    congr 1
    simp
    omega

/-- Equation: a settled call is never resumed. -/
theorem tick_settled (fetch : String → FetchResult) (fl : InFlight) (o : Outcome)
    (hset : fl.settled = some o) : tick fetch fl = fl := by
  simp [tick, hset]

/-- Equation: an exhausted lookup settles the call from its errors array. -/
theorem tick_exhausted (fetch : String → FetchResult) (fl : InFlight)
    (hset : fl.settled = none)
    (hfn : findNext fl.snapshot fl.assetType.name fl.sourceIndex = none) :
    tick fetch fl =
      { fl with settled := some (if fl.errors.length > 0 then Outcome.rejected fl.errors
                                 else Outcome.fulfilledNull) } := by
  simp [tick, hset, hfn]

/-- Equation: a found source whose fetch settles with a 200..299 response
settles the call with the populated asset. -/
theorem tick_success (fetch : String → FetchResult) (fl : InFlight)
    (source : SourceRecord) (j status : Nat) (body : List Nat)
    (hset : fl.settled = none)
    (hfn : findNext fl.snapshot fl.assetType.name fl.sourceIndex = some (source, j))
    (hf : fetch (source.urlFunction fl.asset) = FetchResult.response status body)
    (h2 : 200 ≤ status) (h3 : status < 300) :
    tick fetch fl =
      { fl with settled := some (Outcome.fulfilledAsset
          (fl.asset.setData body fl.assetType.runtimeFormat)) } := by
  have hc : ¬(status < 200 ∨ 300 ≤ status) := by omega
  simp [tick, hset, hfn, hf, hc]

/-- Equation: a found source whose fetch settles with a 404 only advances the
cursor. -/
theorem tick_miss (fetch : String → FetchResult) (fl : InFlight)
    (source : SourceRecord) (j : Nat) (body : List Nat)
    (hset : fl.settled = none)
    (hfn : findNext fl.snapshot fl.assetType.name fl.sourceIndex = some (source, j))
    (hf : fetch (source.urlFunction fl.asset) = FetchResult.response 404 body) :
    tick fetch fl = { fl with sourceIndex := j } := by
  simp [tick, hset, hfn, hf]

/-- Equation: a found source whose fetch settles with a status outside
200..299 and not 404 pushes an AttemptFailure and advances the cursor. -/
theorem tick_fail (fetch : String → FetchResult) (fl : InFlight)
    (source : SourceRecord) (j status : Nat) (body : List Nat)
    (hset : fl.settled = none)
    (hfn : findNext fl.snapshot fl.assetType.name fl.sourceIndex = some (source, j))
    (hf : fetch (source.urlFunction fl.asset) = FetchResult.response status body)
    (hout : status < 200 ∨ 300 ≤ status) (h404 : status ≠ 404) :
    tick fetch fl =
      { fl with sourceIndex := j,
                errors := fl.errors ++ [AttemptFailure.mk (source.urlFunction fl.asset)
                  (FetchResult.response status body)] } := by
  simp [tick, hset, hfn, hf, hout, h404]

/-- Equation: a found source whose fetch settles with a transport error
pushes an AttemptFailure and advances the cursor. -/
theorem tick_transport (fetch : String → FetchResult) (fl : InFlight)
    (source : SourceRecord) (j : Nat) (message : String)
    (hset : fl.settled = none)
    (hfn : findNext fl.snapshot fl.assetType.name fl.sourceIndex = some (source, j))
    (hf : fetch (source.urlFunction fl.asset) = FetchResult.transportError message) :
    tick fetch fl =
      { fl with sourceIndex := j,
                errors := fl.errors ++ [AttemptFailure.mk (source.urlFunction fl.asset)
                  (FetchResult.transportError message)] } := by
  simp [tick, hset, hfn, hf]

/-- One resumption of an in-flight call never changes the outcome it is
committed to. -/
theorem absOutcome_tick (fetch : String → FetchResult) (fl : InFlight) :
    absOutcome fetch (tick fetch fl) = absOutcome fetch fl := by
  cases hset : fl.settled with
  | some o =>
    rw [tick_settled fetch fl o hset]
  | none =>
    cases hfn : findNext fl.snapshot fl.assetType.name fl.sourceIndex with
    | none =>
      have hnone := findNextAux_none_spec fl.assetType.name
        (fl.snapshot.drop fl.sourceIndex) fl.sourceIndex hfn
      rw [tick_exhausted fetch fl hset hfn]
      simp only [absOutcome, hset]
      rw [no_match_spec fetch fl.assetType fl.asset _ fl.sourceIndex fl.errors hnone]
    | some pair =>
      obtain ⟨source, j⟩ := pair
      obtain ⟨hm, hij, pre, hpre, hsplit, hj⟩ :=
        findNextAux_some_spec fl.assetType.name (fl.snapshot.drop fl.sourceIndex)
          fl.sourceIndex source j hfn
      have hdrop : (fl.snapshot.drop fl.sourceIndex).drop (j - fl.sourceIndex) =
          fl.snapshot.drop j := by
        rw [List.drop_drop]
        congr 1
        omega
      have habs : absOutcome fetch fl =
          (tryNextSource fetch fl.assetType fl.asset
            (source :: fl.snapshot.drop j) (fl.sourceIndex + pre.length)
            fl.errors).outcome := by
        simp only [absOutcome, hset]
        rw [hdrop] at hsplit
        rw [hsplit, tryNextSource_skip_prefix fetch fl.assetType fl.asset pre _ _ _ hpre]
      have hjj : fl.sourceIndex + pre.length + 1 = j := by omega
      cases hf : fetch (source.urlFunction fl.asset) with
      | response status body =>
        by_cases h404 : status = 404
        · subst h404
          rw [tick_miss fetch fl source j body hset hfn hf, habs,
            tryNextSource_cons_miss fetch fl.assetType fl.asset source _ _ _ body hm hf,
            probesUpdate_outcome, hjj]
          simp only [absOutcome, hset]
        · by_cases hok : 200 ≤ status ∧ status < 300
          · rw [tick_success fetch fl source j status body hset hfn hf hok.1 hok.2, habs,
              tryNextSource_cons_success fetch fl.assetType fl.asset source _ _ _
                status body hm hf hok.1 hok.2]
            simp only [absOutcome]
          · have hout : status < 200 ∨ 300 ≤ status := by omega
            rw [tick_fail fetch fl source j status body hset hfn hf hout h404, habs,
              tryNextSource_cons_fail fetch fl.assetType fl.asset source _ _ _
                status body hm hf hout h404, probesUpdate_outcome, hjj]
            simp only [absOutcome, hset]
      | transportError message =>
        rw [tick_transport fetch fl source j message hset hfn hf, habs,
          tryNextSource_cons_transport fetch fl.assetType fl.asset source _ _ _
            message hm hf, probesUpdate_outcome, hjj]
        simp only [absOutcome, hset]

/-- A resumption never changes the snapshot an in-flight call walks. -/
theorem tick_snapshot (fetch : String → FetchResult) (fl : InFlight) :
    (tick fetch fl).snapshot = fl.snapshot := by
  cases hset : fl.settled with
  | some o => rw [tick_settled fetch fl o hset]
  | none =>
    cases hfn : findNext fl.snapshot fl.assetType.name fl.sourceIndex with
    | none => rw [tick_exhausted fetch fl hset hfn]
    | some pair =>
      obtain ⟨source, j⟩ := pair
      cases hf : fetch (source.urlFunction fl.asset) with
      | response status body =>
        by_cases h404 : status = 404
        · subst h404
          rw [tick_miss fetch fl source j body hset hfn hf]
        · by_cases hok : 200 ≤ status ∧ status < 300
          · rw [tick_success fetch fl source j status body hset hfn hf hok.1 hok.2]
          · have hout : status < 200 ∨ 300 ≤ status := by omega
            rw [tick_fail fetch fl source j status body hset hfn hf hout h404]
      | transportError message =>
        rw [tick_transport fetch fl source j message hset hfn hf]

/-- Equation: running an interleaving step by step. -/
theorem sysRun_cons (fetch : String → FetchResult) (s : SysState) (action : SysAction)
    (actions : List SysAction) :
    sysRun fetch s (action :: actions) = sysRun fetch (sysStep fetch s action) actions := rfl

/-- Along any interleaving of resumptions and registrations, the in-flight
call keeps its snapshot and stays committed to the same outcome. -/
theorem sysRun_invariant (fetch : String → FetchResult) (s : SysState)
    (actions : List SysAction) :
    absOutcome fetch (sysRun fetch s actions).inflight = absOutcome fetch s.inflight ∧
    (sysRun fetch s actions).inflight.snapshot = s.inflight.snapshot := by
  induction actions generalizing s with
  | nil => exact ⟨rfl, rfl⟩
  | cons action actions ih =>
    have hstep : absOutcome fetch (sysStep fetch s action).inflight =
        absOutcome fetch s.inflight ∧
        (sysStep fetch s action).inflight.snapshot = s.inflight.snapshot := by
      cases action with
      | tick => exact ⟨absOutcome_tick fetch s.inflight, tick_snapshot fetch s.inflight⟩
      | add types urlFunction => exact ⟨rfl, rfl⟩
    obtain ⟨h1, h2⟩ := ih (sysStep fetch s action)
    rw [sysRun_cons]
    exact ⟨h1.trans hstep.1, h2.trans hstep.2⟩

/-- load unfolded: the loop on the snapshot, empty asset, cursor 0, no
errors. -/
theorem load_eq (helper : WebHelper) (fetch : String → FetchResult)
    (assetType : AssetType) (assetId : String) :
    helper.load fetch assetType assetId =
      tryNextSource fetch assetType (mkAsset assetType assetId) helper.sources 0 [] := rfl

/-- C1: for every load call in which the fetch of some probed source settled with
a response whose status is in 200..299, load fulfills with the AssetValue
populated with exactly the raw body bytes of that response and
assetType.runtimeFormat, the successful probe is the last one recorded, and
no source after it is probed (every recorded urlFunction invocation and
fetch has a source index at most the successful one) — first success wins. -/
theorem claim1_first_success_wins (helper : WebHelper) (fetch : String → FetchResult)
    (assetType : AssetType) (assetId : String) (e : Probe) (status : Nat) (body : List Nat)
    (he : e ∈ (helper.load fetch assetType assetId).probes)
    (hr : e.result = FetchResult.response status body)
    (h2 : 200 ≤ status) (h3 : status < 300) :
    (helper.load fetch assetType assetId).outcome =
      Outcome.fulfilledAsset { assetType := assetType, assetId := assetId,
                               data := some (body, assetType.runtimeFormat) } ∧
    (helper.load fetch assetType assetId).probes.getLast? = some e ∧
    ∀ q ∈ (helper.load fetch assetType assetId).probes, q.index ≤ e.index := by
  have hst : isSuccessResult e.result = true := by
    rw [hr]
    simp only [isSuccessResult, Bool.and_eq_true, decide_eq_true_eq]
    omega
  rw [load_eq] at he ⊢
  obtain ⟨houtc, hlast, hidx⟩ := success_probe_spec fetch assetType
    (mkAsset assetType assetId) helper.sources 0 [] e he hst
  exact ⟨(houtc status body hr).trans rfl, hlast, hidx⟩

/-- Witness for C1: with sources png, sb3, sb3 and a network answering 200
with body 7 everywhere, the probe of the source at index 1 succeeds, load
fulfills with the populated asset, and that probe is the last one. -/
theorem claim1_first_success_wins_witness :
    ({ index := 1, url := "a/42", result := FetchResult.response 200 [7] } : Probe) ∈
        (demoHelper.load fetchAllOk demoType "42").probes ∧
    (demoHelper.load fetchAllOk demoType "42").outcome =
      Outcome.fulfilledAsset { assetType := demoType, assetId := "42",
                               data := some ([7], demoType.runtimeFormat) } ∧
    (demoHelper.load fetchAllOk demoType "42").probes.getLast? =
      some { index := 1, url := "a/42", result := FetchResult.response 200 [7] } := by
  have hm : ({ index := 1, url := "a/42", result := FetchResult.response 200 [7] } : Probe) ∈
      (demoHelper.load fetchAllOk demoType "42").probes := by decide
  have h := claim1_first_success_wins demoHelper fetchAllOk demoType "42"
    { index := 1, url := "a/42", result := FetchResult.response 200 [7] } 200 [7]
    hm rfl (by decide) (by decide)
  exact ⟨hm, h.1, h.2.1⟩

/-- C2: on every load call the failure list records no 404 (every recorded
entry is a non-2xx non-404 response or a transport error); and when the
first matching source answers 404 and the second answers 2xx, load fulfills
with the asset populated from the second source and the failure list is
empty, containing in particular no entry for the first source. -/
theorem claim2_404_not_recorded (helper : WebHelper) (fetch : String → FetchResult)
    (assetType : AssetType) (assetId : String) :
    (∀ a ∈ (helper.load fetch assetType assetId).errors,
      isMissResult a.result = false ∧ isRecordedFailure a.result = true) ∧
    (∀ s1 s2 rest b1 status2 b2,
      matchingSources helper.sources assetType.name = s1 :: s2 :: rest →
      fetch (s1.urlFunction (mkAsset assetType assetId)) = FetchResult.response 404 b1 →
      fetch (s2.urlFunction (mkAsset assetType assetId)) =
        FetchResult.response status2 b2 →
      200 ≤ status2 → status2 < 300 →
      (helper.load fetch assetType assetId).outcome =
        Outcome.fulfilledAsset { assetType := assetType, assetId := assetId,
                                 data := some (b2, assetType.runtimeFormat) } ∧
      (helper.load fetch assetType assetId).errors = []) := by
  constructor
  · intro a ha
    rw [load_eq] at ha
    rcases errors_mem_spec fetch assetType (mkAsset assetType assetId)
      helper.sources 0 [] a ha with hin | ⟨hrec, _⟩
    · simp at hin
    · refine ⟨?_, hrec⟩
      cases hres : a.result with
      | response st b =>
        rw [hres] at hrec
        simp only [isRecordedFailure, Bool.and_eq_true, Bool.or_eq_true,
          decide_eq_true_eq] at hrec
        simp only [isMissResult, decide_eq_false_iff_not]
        omega
      | transportError m => rfl
  · intro s1 s2 rest b1 status2 b2 hfil hf1 hf2 h2 h3
    have hmem1 : s1 ∈ matchingSources helper.sources assetType.name := by
      rw [hfil]; exact List.mem_cons_self s1 (s2 :: rest)
    have hmem2 : s2 ∈ matchingSources helper.sources assetType.name := by
      rw [hfil]; exact List.mem_cons_of_mem s1 (List.mem_cons_self s2 rest)
    simp only [matchingSources] at hmem1 hmem2
    have hm1 : s1.types.contains assetType.name = true := (List.mem_filter.mp hmem1).2
    have hm2 : s2.types.contains assetType.name = true := (List.mem_filter.mp hmem2).2
    obtain ⟨ho, he⟩ := filter_spec fetch assetType (mkAsset assetType assetId)
      helper.sources 0 0 []
    rw [hfil, tryNextSource_cons_miss fetch assetType (mkAsset assetType assetId) s1
        (s2 :: rest) 0 [] b1 hm1 hf1, probesUpdate_outcome,
      tryNextSource_cons_success fetch assetType (mkAsset assetType assetId) s2 rest
        (0 + 1) [] status2 b2 hm2 hf2 h2 h3] at ho
    rw [hfil, tryNextSource_cons_miss fetch assetType (mkAsset assetType assetId) s1
        (s2 :: rest) 0 [] b1 hm1 hf1, probesUpdate_errors,
      tryNextSource_cons_success fetch assetType (mkAsset assetType assetId) s2 rest
        (0 + 1) [] status2 b2 hm2 hf2 h2 h3] at he
    rw [load_eq]
    exact ⟨ho.trans rfl, he.trans rfl⟩

/-- Witness for C2: with two sb3 sources where the first answers 404 and the
second answers 200 with body 9, load fulfills with the asset populated from
the second source and the failure list is empty. -/
theorem claim2_404_not_recorded_witness :
    (demoHelperAB.load fetchMissThenOk demoType "42").outcome =
      Outcome.fulfilledAsset { assetType := demoType, assetId := "42",
                               data := some ([9], demoType.runtimeFormat) } ∧
    (demoHelperAB.load fetchMissThenOk demoType "42").errors = [] := by
  have h := (claim2_404_not_recorded demoHelperAB fetchMissThenOk demoType "42").2
    srcA srcB [] [] 200 [9] rfl rfl rfl (by decide) (by decide)
  exact h

/-- C3: when at least one source matches and the fetch of every matching source
settles with a recorded failure (transport error, or status outside 200..299
and not 404), load rejects with the ordered failure list holding one entry
per matching source in probe order, each entry carrying the url computed by
that source and its fetch result; hence the list has exactly one entry per
matching source and the entry at each position holds the url of that source. -/
theorem claim3_all_fail_rejects (helper : WebHelper) (fetch : String → FetchResult)
    (assetType : AssetType) (assetId : String)
    (hne : matchingSources helper.sources assetType.name ≠ [])
    (hall : ∀ s ∈ helper.sources, s.types.contains assetType.name = true →
      isRecordedFailure (fetch (s.urlFunction (mkAsset assetType assetId))) = true) :
    (helper.load fetch assetType assetId).outcome =
      Outcome.rejected ((matchingSources helper.sources assetType.name).map
        (attemptOf fetch (mkAsset assetType assetId))) ∧
    ((matchingSources helper.sources assetType.name).map
        (attemptOf fetch (mkAsset assetType assetId))).length =
      (matchingSources helper.sources assetType.name).length ∧
    ∀ k s, (matchingSources helper.sources assetType.name).get? k = some s →
      ((matchingSources helper.sources assetType.name).map
          (attemptOf fetch (mkAsset assetType assetId))).get? k =
        some (AttemptFailure.mk (s.urlFunction (mkAsset assetType assetId))
          (fetch (s.urlFunction (mkAsset assetType assetId)))) := by
  obtain ⟨he, ho⟩ := all_fail_spec fetch assetType (mkAsset assetType assetId)
    helper.sources 0 [] hall
  rw [List.nil_append] at he ho
  have hpos : ((matchingSources helper.sources assetType.name).map
      (attemptOf fetch (mkAsset assetType assetId))).length > 0 := by
    rw [List.length_map]
    exact List.length_pos.mpr hne
  refine ⟨?_, List.length_map _ _, ?_⟩
  · rw [load_eq, ho, if_pos hpos]
  · intro k s hk
    rw [List.get?_map, hk]
    rfl

/-- Witness for C3: two matching sb3 sources, the network answering 500
everywhere; load rejects with one entry per source carrying its url. -/
theorem claim3_all_fail_rejects_witness :
    (demoHelperAB.load fetchAll500 demoType "42").outcome =
      Outcome.rejected ((matchingSources demoHelperAB.sources demoType.name).map
        (attemptOf fetchAll500 (mkAsset demoType "42"))) ∧
    ((matchingSources demoHelperAB.sources demoType.name).map
        (attemptOf fetchAll500 (mkAsset demoType "42"))).length =
      (matchingSources demoHelperAB.sources demoType.name).length := by
  have hne : matchingSources demoHelperAB.sources demoType.name ≠ [] := by
    rw [show matchingSources demoHelperAB.sources demoType.name = [srcA, srcB] from rfl]
    simp
  have h := claim3_all_fail_rejects demoHelperAB fetchAll500 demoType "42" hne
    (fun s hs hc => rfl)
  exact ⟨h.1, h.2.1⟩

/-- C4: when at least one source matches and the fetch of every matching source
settles with a 404 response, load fulfills with null and the failure list is
empty — 404-only exhaustion is success shaped, not failure shaped. -/
theorem claim4_all_404_null (helper : WebHelper) (fetch : String → FetchResult)
    (assetType : AssetType) (assetId : String)
    (hne : matchingSources helper.sources assetType.name ≠ [])
    (hall : ∀ s ∈ helper.sources, s.types.contains assetType.name = true →
      isMissResult (fetch (s.urlFunction (mkAsset assetType assetId))) = true) :
    (helper.load fetch assetType assetId).outcome = Outcome.fulfilledNull ∧
    (helper.load fetch assetType assetId).errors = [] := by
  obtain ⟨he, ho, _⟩ := all_miss_spec fetch assetType (mkAsset assetType assetId)
    helper.sources 0 [] hall
  rw [load_eq]
  exact ⟨ho.trans rfl, he⟩

/-- Witness for C4: two matching sb3 sources, the network answering 404
everywhere; load fulfills with null and the failure list is empty. -/
theorem claim4_all_404_null_witness :
    (demoHelperAB.load fetchAll404 demoType "42").outcome = Outcome.fulfilledNull ∧
    (demoHelperAB.load fetchAll404 demoType "42").errors = [] := by
  have hne : matchingSources demoHelperAB.sources demoType.name ≠ [] := by
    rw [show matchingSources demoHelperAB.sources demoType.name = [srcA, srcB] from rfl]
    simp
  exact claim4_all_404_null demoHelperAB fetchAll404 demoType "42" hne
    (fun s hs hc => rfl)

/-- C5: when the type set of no registered source contains assetType.name, load
fulfills with null and no urlFunction invocation or fetch happens at all. -/
theorem claim5_no_match_null (helper : WebHelper) (fetch : String → FetchResult)
    (assetType : AssetType) (assetId : String)
    (hnone : ∀ s ∈ helper.sources, s.types.contains assetType.name = false) :
    (helper.load fetch assetType assetId).outcome = Outcome.fulfilledNull ∧
    (helper.load fetch assetType assetId).probes = [] := by
  rw [load_eq,
    no_match_spec fetch assetType (mkAsset assetType assetId) helper.sources 0 [] hnone]
  exact ⟨rfl, rfl⟩

/-- Witness for C5: a registry whose only source serves png; loading sb3
fulfills with null and no probe happens. -/
theorem claim5_no_match_null_witness :
    (demoHelperC.load fetchAllOk demoType "42").outcome = Outcome.fulfilledNull ∧
    (demoHelperC.load fetchAllOk demoType "42").probes = [] := by
  refine claim5_no_match_null demoHelperC fetchAllOk demoType "42" ?_
  intro s hs
  rw [show demoHelperC.sources = [srcC] from rfl] at hs
  simp only [List.mem_singleton] at hs
  subst hs
  rfl

/-- C6: a registered source whose type set does not contain assetType.name
is never probed: no recorded probe carries its index; every probe points at
a matching source and carries its computed url and fetch result; and probes
happen in strictly increasing registration index order. -/
theorem claim6_nonmatching_never_probed (helper : WebHelper) (fetch : String → FetchResult)
    (assetType : AssetType) (assetId : String) :
    (∀ j s, helper.sources.get? j = some s →
      s.types.contains assetType.name = false →
      ∀ e ∈ (helper.load fetch assetType assetId).probes, e.index ≠ j) ∧
    (∀ e ∈ (helper.load fetch assetType assetId).probes,
      ∃ s, helper.sources.get? e.index = some s ∧
        s.types.contains assetType.name = true ∧
        e.url = s.urlFunction (mkAsset assetType assetId) ∧
        e.result = fetch e.url) ∧
    ((helper.load fetch assetType assetId).probes).Pairwise
      (fun p q => p.index < q.index) := by
  have hmem : ∀ e ∈ (helper.load fetch assetType assetId).probes,
      ∃ s, helper.sources.get? e.index = some s ∧
        s.types.contains assetType.name = true ∧
        e.url = s.urlFunction (mkAsset assetType assetId) ∧
        e.result = fetch e.url := by
    intro e he
    rw [load_eq] at he
    obtain ⟨h1, h2, s, h3, h4, h5, h6⟩ := probe_mem_spec fetch assetType
      (mkAsset assetType assetId) helper.sources 0 [] e he
    rw [Nat.sub_zero] at h3
    exact ⟨s, h3, h4, h5, h6⟩
  have hpw : ((helper.load fetch assetType assetId).probes).Pairwise
      (fun p q => p.index < q.index) := by
    rw [load_eq]
    exact probes_pairwise fetch assetType (mkAsset assetType assetId) helper.sources 0 []
  refine ⟨?_, hmem, hpw⟩
  intro j s hj hns e he hej
  obtain ⟨s2, hs2, hc2, _, _⟩ := hmem e he
  rw [hej, hj] at hs2
  have hss : s = s2 := Option.some.inj hs2
  rw [← hss, hns] at hc2
  exact Bool.false_ne_true hc2

/-- Witness for C6: with sources png, sb3, sb3 and a network answering 200,
the png source at index 0 is never probed: the recorded successful probe has
a different index. -/
theorem claim6_nonmatching_never_probed_witness :
    ({ index := 1, url := "a/42", result := FetchResult.response 200 [7] } : Probe).index ≠
      0 := by
  have h := claim6_nonmatching_never_probed demoHelper fetchAllOk demoType "42"
  exact h.1 0 srcC rfl rfl
    { index := 1, url := "a/42", result := FetchResult.response 200 [7] } (by decide)

/-- C7: every load call settles exactly once with exactly one of the three
outcomes, after at most one probe per registry entry: the probe count is
bounded by the snapshot size, probe indices are strictly increasing (so no
index is revisited), and every probe index is inside the snapshot (no
wraparound). -/
theorem claim7_termination_bounds (helper : WebHelper) (fetch : String → FetchResult)
    (assetType : AssetType) (assetId : String) :
    (helper.load fetch assetType assetId).probes.length ≤ helper.sources.length ∧
    ((helper.load fetch assetType assetId).probes).Pairwise
      (fun p q => p.index < q.index) ∧
    (∀ e ∈ (helper.load fetch assetType assetId).probes,
      e.index < helper.sources.length) ∧
    ((∃ a, (helper.load fetch assetType assetId).outcome = Outcome.fulfilledAsset a) ∨
      (helper.load fetch assetType assetId).outcome = Outcome.fulfilledNull ∨
      (∃ es, (helper.load fetch assetType assetId).outcome = Outcome.rejected es)) := by
  rw [load_eq]
  refine ⟨probes_length_le fetch assetType (mkAsset assetType assetId) helper.sources 0 [],
    probes_pairwise fetch assetType (mkAsset assetType assetId) helper.sources 0 [],
    ?_, ?_⟩
  · intro e he
    obtain ⟨h1, h2, _⟩ := probe_mem_spec fetch assetType (mkAsset assetType assetId)
      helper.sources 0 [] e he
    omega
  · cases ho : (tryNextSource fetch assetType (mkAsset assetType assetId)
        helper.sources 0 []).outcome with
    | fulfilledAsset a => exact Or.inl ⟨a, rfl⟩
    | fulfilledNull => exact Or.inr (Or.inl rfl)
    | rejected es => exact Or.inr (Or.inr ⟨es, rfl⟩)

/-- Witness for C7: the bound instantiated on the concrete three-source run:
one probe happened out of three registered sources. -/
theorem claim7_termination_bounds_witness :
    (demoHelper.load fetchAllOk demoType "42").probes.length ≤
      demoHelper.sources.length :=
  (claim7_termination_bounds demoHelper fetchAllOk demoType "42").1

/-- C8: setData is invoked at most once per load call, exactly once on the
fulfilled-asset path where the returned asset is fully populated with some
body and assetType.runtimeFormat, and never on the null or rejected paths,
so the AssetValue is never partially filled. -/
theorem claim8_setData_once (helper : WebHelper) (fetch : String → FetchResult)
    (assetType : AssetType) (assetId : String) :
    (helper.load fetch assetType assetId).setDataCalls ≤ 1 ∧
    (∀ a, (helper.load fetch assetType assetId).outcome = Outcome.fulfilledAsset a →
      (helper.load fetch assetType assetId).setDataCalls = 1 ∧
      ∃ body, a = { assetType := assetType, assetId := assetId,
                    data := some (body, assetType.runtimeFormat) }) ∧
    ((helper.load fetch assetType assetId).outcome = Outcome.fulfilledNull →
      (helper.load fetch assetType assetId).setDataCalls = 0) ∧
    (∀ es, (helper.load fetch assetType assetId).outcome = Outcome.rejected es →
      (helper.load fetch assetType assetId).setDataCalls = 0) := by
  rw [load_eq]
  obtain ⟨hle, hfa, hnull, hrej⟩ := setData_spec fetch assetType
    (mkAsset assetType assetId) helper.sources 0 []
  refine ⟨hle, ?_, hnull, hrej⟩
  intro a ha
  obtain ⟨h1, body, h2⟩ := hfa a ha
  exact ⟨h1, body, h2.trans rfl⟩

/-- Witness for C8: on the concrete successful run, setData was invoked
exactly once. -/
theorem claim8_setData_once_witness :
    (demoHelper.load fetchAllOk demoType "42").setDataCalls = 1 ∧
    (demoHelper.load fetchAllOk demoType "42").setDataCalls ≤ 1 := by
  have h := claim8_setData_once demoHelper fetchAllOk demoType "42"
  exact ⟨(h.2.1 demoAsset7 (by decide)).1, h.1⟩

/-- C9: every load call operates on the snapshot of the source list taken at
invocation: across any interleaving of resumptions of the call with
addSource registrations, the snapshot the call walks stays the list that was
registered when load was called, and if the call settles, it settles with
exactly the outcome of loading against that original list — later addSource
calls have no effect on the in-flight probing. -/
theorem claim9_snapshot_isolation (helper : WebHelper) (fetch : String → FetchResult)
    (assetType : AssetType) (assetId : String) (actions : List SysAction) (out : Outcome)
    (hset : (sysRun fetch (startSys helper assetType assetId) actions).inflight.settled =
      some out) :
    out = (helper.load fetch assetType assetId).outcome ∧
    (sysRun fetch (startSys helper assetType assetId) actions).inflight.snapshot =
      helper.sources := by
  obtain ⟨habs, hsnap⟩ := sysRun_invariant fetch
    (startSys helper assetType assetId) actions
  constructor
  · have h1 : absOutcome fetch
        (sysRun fetch (startSys helper assetType assetId) actions).inflight = out := by
      simp [absOutcome, hset]
    have h2 : absOutcome fetch (startLoad helper assetType assetId) =
        (helper.load fetch assetType assetId).outcome := by
      simp [absOutcome, startLoad, WebHelper.load, mkAsset]
    rw [← h1, habs]
    exact h2
  · exact hsnap

/-- Witness for C9: a one-source registry; a registration is interleaved
before the resumption, yet the call settles with the outcome of loading
against the original one-source list, and its snapshot is unchanged. -/
theorem claim9_snapshot_isolation_witness :
    Outcome.fulfilledAsset demoAsset7 =
      (demoHelperA.load fetchAllOk demoType "42").outcome ∧
    (sysRun fetchAllOk (startSys demoHelperA demoType "42")
      [SysAction.add [demoPngType] srcC.urlFunction,
        SysAction.tick]).inflight.snapshot = demoHelperA.sources :=
  claim9_snapshot_isolation demoHelperA fetchAllOk demoType "42"
    [SysAction.add [demoPngType] srcC.urlFunction, SysAction.tick]
    (Outcome.fulfilledAsset demoAsset7) (by decide)

/-- C10: a resumption of an in-flight load never changes the registry, and
addSource appends exactly one record (whose types are the names of the given
asset types) at the end, adding one to the length and leaving every existing
entry untouched. -/
theorem claim10_registry_frame (fetch : String → FetchResult) (s : SysState)
    (helper : WebHelper) (types : List AssetType) (urlFunction : Asset → String) :
    (sysStep fetch s SysAction.tick).helper = s.helper ∧
    (helper.addSource types urlFunction).sources = helper.sources ++
      [{ types := types.map (fun t => t.name), urlFunction := urlFunction }] ∧
    (helper.addSource types urlFunction).sources.length = helper.sources.length + 1 ∧
    (∀ j, j < helper.sources.length →
      (helper.addSource types urlFunction).sources.get? j = helper.sources.get? j) := by
  refine ⟨rfl, rfl, by simp [WebHelper.addSource], ?_⟩
  intro j hj
  simp only [WebHelper.addSource, List.get?_eq_getElem?]
  exact List.getElem?_append_left hj

/-- Witness for C10: on the concrete two-source helper, a tick leaves the
registry in place and addSource preserves the entry at index 0. -/
theorem claim10_registry_frame_witness :
    (sysStep fetchAllOk demoSysAB SysAction.tick).helper = demoSysAB.helper ∧
    (demoHelperAB.addSource [demoPngType] srcC.urlFunction).sources.get? 0 =
      demoHelperAB.sources.get? 0 := by
  have h := claim10_registry_frame fetchAllOk demoSysAB
    demoHelperAB [demoPngType] srcC.urlFunction
  exact ⟨h.1, h.2.2.2 0 (by decide)⟩

end ScratchStorage
